import Mathlib

/-!
# Verification of the `web3-rpc-pool` core

A shallow embedding, in Lean 4, of the core data model and algorithms of the
`web3-rpc-pool` Rust crate, together with theorems settling the specification
claims about it.

Modelling conventions:
* Rust machine integers (`u32`, `u64`, `usize`) are modelled as `Nat`.
  The counter increments in `EndpointStats` can only overflow after `2^32`
  (resp. `2^64`) consecutive operations, which is unreachable; saturating
  arithmetic (`saturating_pow`, `saturating_mul` in the backoff computation)
  is modelled explicitly with the `u64` bound.
* `f64` latency values (`avg_latency_ms`) are modelled as `ℚ`; no claim
  depends on floating-point rounding, only on the ordering of latencies.
  `f64::MAX` — used by the latency strategy as the sort key for endpoints
  absent from the stats snapshot — dominates every latency an EMA of
  observations can produce, and is modelled as `⊤` in `WithTop ℚ`.
* `Instant` timestamps are modelled as `Nat` instants supplied explicitly;
  `Duration::MAX` (the idle time of a never-used endpoint in the rate-aware
  strategy) is modelled as `⊤` in `WithTop Nat`.
* `HashMap`/`DashMap` values keyed by URL are modelled as association lists
  (`List (String × _)`), `HashSet` as `List String` with membership.
* Rust strings are modelled as `List Char` where byte-level behaviour
  matters (`truncate_error_message` slices at a byte index, which panics on
  a non-boundary); a panic is modelled as `Option.none`.
-/

namespace RpcPool

/-! ## Capabilities and grading (`src/endpoint.rs`) -/

/-- Model of `EndpointCapabilities` from `src/endpoint.rs`. -/
structure EndpointCapabilities where
  supports_eth_get_logs : Option Bool
  max_batch_size : Option Nat
  max_block_range : Option Nat
  supports_debug_trace : Option Bool
  supports_websocket : Bool
  rate_limit_rps : Option Nat
deriving DecidableEq, Repr

/-- Model of `Default for EndpointCapabilities` (all `None` / `false`). -/
def EndpointCapabilities.default : EndpointCapabilities :=
  ⟨none, none, none, none, false, none⟩

/-- Model of `EndpointGrade` from `src/endpoint.rs` (F < D < C < B < A). -/
inductive EndpointGrade where
  | F
  | D
  | C
  | B
  | A
deriving DecidableEq, Repr

/-- The `has_any_data` test inside `EndpointCapabilities::grade` and
`EndpointCapabilities::priority_adjustment`: whether any of the three
grading-relevant fields is known. -/
def EndpointCapabilities.has_any_data (c : EndpointCapabilities) : Bool :=
  c.supports_eth_get_logs.isSome || c.max_batch_size.isSome || c.max_block_range.isSome

/-- Model of `EndpointCapabilities::grade` from `src/endpoint.rs`. -/
def EndpointCapabilities.grade (c : EndpointCapabilities) : EndpointGrade :=
  if ¬ c.has_any_data then .D
  else
    let supports_logs := c.supports_eth_get_logs.getD false
    if ¬ supports_logs then .D
    else
      let batch := c.max_batch_size.getD 0
      let range := c.max_block_range.getD 0
      let batch_ok_a := batch == 0 || batch ≥ 100
      let range_ok_a := range == 0 || range ≥ 10000
      if batch_ok_a && range_ok_a then .A
      else
        let batch_ok_b := batch == 0 || batch ≥ 10
        let range_ok_b := range == 0 || range ≥ 1000
        if batch_ok_b && range_ok_b then .B
        else .C

/-- Model of `EndpointCapabilities::priority_adjustment` from `src/endpoint.rs`. -/
def EndpointCapabilities.priority_adjustment (c : EndpointCapabilities) : Int :=
  match c.grade with
  | .A => -20
  | .B => -10
  | .C => 0
  | .D => if c.has_any_data then 10 else 0
  | .F => 50

/-! ## Endpoints and statistics (`src/endpoint.rs`) -/

/-- Model of `RpcEndpoint` from `src/endpoint.rs`. -/
structure RpcEndpoint where
  url : String
  ws_url : Option String
  name : String
  priority : Nat
  chain_id : Nat
  capabilities : EndpointCapabilities
deriving DecidableEq, Repr

/-- Model of `RpcEndpoint::new` from `src/endpoint.rs`. -/
def RpcEndpoint.new (url : String) : RpcEndpoint :=
  { url := url
    ws_url := none
    name := url
    priority := 100
    chain_id := 0
    capabilities := EndpointCapabilities.default }

/-- Model of `EndpointStats` from `src/endpoint.rs`.  Counters are `Nat` (see module
header); `avg_latency_ms` is `ℚ`; `last_error_time` is a `Nat` instant. -/
structure EndpointStats where
  url : String
  name : String
  total_requests : Nat
  successful_requests : Nat
  failed_requests : Nat
  avg_latency_ms : ℚ
  last_latency_ms : Nat
  last_error : Option String
  last_error_time : Option Nat
  is_healthy : Bool
  consecutive_errors : Nat
  recovery_attempts : Nat
deriving DecidableEq, Repr

/-- Model of `MAX_RECOVERY_BACKOFF_SECS` from `src/endpoint.rs`. -/
def MAX_RECOVERY_BACKOFF_SECS : Nat := 300

/-- Model of `EndpointStats::new` from `src/endpoint.rs`. -/
def EndpointStats.new (endpoint : RpcEndpoint) : EndpointStats :=
  { url := endpoint.url
    name := endpoint.name
    total_requests := 0
    successful_requests := 0
    failed_requests := 0
    avg_latency_ms := 0
    last_latency_ms := 0
    last_error := none
    last_error_time := none
    is_healthy := true
    consecutive_errors := 0
    recovery_attempts := 0 }

/-- Model of `EndpointStats::update_latency` from `src/endpoint.rs` (EMA with 0.9/0.1
weights, idealized over `ℚ`). -/
def EndpointStats.update_latency (s : EndpointStats) (latency_ms : Nat) : EndpointStats :=
  { s with
    last_latency_ms := latency_ms
    avg_latency_ms :=
      if s.avg_latency_ms = 0 then (latency_ms : ℚ)
      else s.avg_latency_ms * (9/10) + (latency_ms : ℚ) * (1/10) }

/-- Model of `EndpointStats::record_success` from `src/endpoint.rs`. -/
def EndpointStats.record_success (s : EndpointStats) (latency_ms : Nat) : EndpointStats :=
  let s := { s with
    total_requests := s.total_requests + 1
    successful_requests := s.successful_requests + 1 }
  let s := s.update_latency latency_ms
  { s with consecutive_errors := 0, is_healthy := true }

/-- Model of `EndpointStats::record_failure` from `src/endpoint.rs`.  `now` models
`Instant::now()`.  Returns the `bool` of the Rust function together with the
updated stats. -/
def EndpointStats.record_failure (s : EndpointStats) (error : String) (now : Nat)
    (max_consecutive : Nat) : Bool × EndpointStats :=
  let s := { s with
    total_requests := s.total_requests + 1
    failed_requests := s.failed_requests + 1
    consecutive_errors := s.consecutive_errors + 1
    last_error := some error
    last_error_time := some now }
  if s.consecutive_errors ≥ max_consecutive then
    (true, { s with is_healthy := false })
  else
    (false, s)

/-- Model of `2u64::saturating_pow` for base 2, as used in
`EndpointStats::current_retry_delay`. -/
def sat_pow2_u64 (k : Nat) : Nat := min (2 ^ k) (2 ^ 64 - 1)

/-- Model of `u64::saturating_mul`. -/
def sat_mul_u64 (a b : Nat) : Nat := min (a * b) (2 ^ 64 - 1)

/-- Model of `EndpointStats::current_retry_delay` from `src/endpoint.rs`:
`base * 2^recovery_attempts` in saturating `u64` arithmetic, capped at
`MAX_RECOVERY_BACKOFF_SECS`.  `base_retry_delay` is the delay in whole
seconds (`Duration::as_secs`). -/
def EndpointStats.current_retry_delay (s : EndpointStats) (base_retry_delay : Nat) : Nat :=
  let backoff_multiplier := sat_pow2_u64 s.recovery_attempts
  let backoff_secs := sat_mul_u64 base_retry_delay backoff_multiplier
  min backoff_secs MAX_RECOVERY_BACKOFF_SECS

/-- Model of `EndpointStats::increment_recovery_attempts` from `src/endpoint.rs`. -/
def EndpointStats.increment_recovery_attempts (s : EndpointStats) : EndpointStats :=
  if s.recovery_attempts < 10 then
    { s with recovery_attempts := s.recovery_attempts + 1 }
  else s

/-- Model of `EndpointStats::mark_recovered` from `src/endpoint.rs`. -/
def EndpointStats.mark_recovered (s : EndpointStats) : EndpointStats :=
  { s with is_healthy := true, consecutive_errors := 0, recovery_attempts := 0 }

/-! ## Error-message truncation (`src/pool.rs`) -/

/-- Model of `MAX_ERROR_MESSAGE_LENGTH` from `src/pool.rs`. -/
def MAX_ERROR_MESSAGE_LENGTH : Nat := 512

/-- The UTF-8 byte length of a Rust string, `str::len`. -/
def utf8Len (s : List Char) : Nat := (s.map Char.utf8Size).sum

/-- Rust byte slicing `&msg[..k]` on a UTF-8 string: the characters making up
the first `k` bytes, or `none` when `k` does not fall on a character boundary
(in which case Rust panics). -/
def utf8Take : List Char → Nat → Option (List Char)
  | _, 0 => some []
  | [], _ + 1 => none
  | c :: cs, k + 1 =>
    if c.utf8Size ≤ k + 1 then (utf8Take cs (k + 1 - c.utf8Size)).map (c :: ·) else none

/-- Model of `truncate_error_message` from `src/pool.rs`.  `none` models the panic of
`&msg[..MAX_ERROR_MESSAGE_LENGTH]` when byte 512 is not a char boundary. -/
def truncate_error_message (msg : List Char) : Option (List Char) :=
  if utf8Len msg ≤ MAX_ERROR_MESSAGE_LENGTH then some msg
  else (utf8Take msg MAX_ERROR_MESSAGE_LENGTH).map (· ++ "...(truncated)".toList)

/-! ## Stats operation sequences (for the counter invariant) -/

/-- One mutation of an `EndpointStats` record, as performed by the pool's
execute path and health task. -/
inductive StatsOp where
  | success (latency_ms : Nat)
  | failure (error : String) (now : Nat) (max_consecutive : Nat)
  | recovered
  | latency (latency_ms : Nat)

/-- Apply one `StatsOp` to a stats record. -/
def StatsOp.apply (s : EndpointStats) : StatsOp → EndpointStats
  | .success l => s.record_success l
  | .failure e n m => (s.record_failure e n m).2
  | .recovered => s.mark_recovered
  | .latency l => s.update_latency l

/-- Run a sequence of stats operations from a given state. -/
def runStatsOps (s : EndpointStats) (ops : List StatsOp) : EndpointStats :=
  ops.foldl StatsOp.apply s

/-! ## Errors (`src/error.rs`) -/

/-- Model of `RpcPoolError` from `src/error.rs`. -/
inductive RpcPoolError where
  | AllEndpointsFailed (msg : String)
  | NoEndpointsConfigured
  | NoHealthyEndpoints
  | ClientCreationFailed (msg : String)
  | TransportError (msg : String)
  | InvalidUrl (msg : String)
  | Timeout (ms : Nat)
  | PoolShutdown
  | NoWebSocketEndpoints
  | WebSocketError (msg : String)
deriving DecidableEq, Repr

/-! ## Selection strategies (`src/strategies/`) -/

/-- The stats snapshot handed to `SelectionStrategy::select`
(`HashMap<String, EndpointStats>` modelled as an association list). -/
abbrev StatsMap := List (String × EndpointStats)

/-- The health filter common to all four strategies:
`stats.get(&e.url).map(|s| s.is_healthy).unwrap_or(true)`. -/
def healthFilter (stats : StatsMap) (e : RpcEndpoint) : Bool :=
  ((stats.lookup e.url).map (·.is_healthy)).getD true

/-- Model of `FailoverStrategy::select` from `src/strategies/failover.rs`. -/
def failover_select (endpoints : List RpcEndpoint) (stats : StatsMap)
    (exclude : List String) : Option RpcEndpoint :=
  let healthy := (endpoints.filter (fun e => !exclude.contains e.url)).find?
    (fun e => healthFilter stats e)
  match healthy with
  | some e => some e
  | none => endpoints.find? (fun e => !exclude.contains e.url)

/-- The `healthy` / `candidates` list computed by the round-robin, latency and
rate-aware strategies: non-excluded endpoints passing the health filter,
input order preserved. -/
def healthyCandidates (endpoints : List RpcEndpoint) (stats : StatsMap)
    (exclude : List String) : List RpcEndpoint :=
  (endpoints.filter (fun e => !exclude.contains e.url)).filter
    (fun e => healthFilter stats e)

/-- Model of `RoundRobinStrategy::select` from `src/strategies/round_robin.rs`.
`current_index` is the strategy's atomic counter; the updated counter is
returned (the early fallback return happens before `fetch_add`). -/
def round_robin_select (current_index : Nat) (endpoints : List RpcEndpoint)
    (stats : StatsMap) (exclude : List String) : Option RpcEndpoint × Nat :=
  let healthy := healthyCandidates endpoints stats exclude
  if healthy.isEmpty then
    (endpoints.find? (fun e => !exclude.contains e.url), current_index)
  else
    (healthy[current_index % healthy.length]?, current_index + 1)

/-- The latency sort key of `LatencyBasedStrategy::select`:
`stats.get(&e.url).map(|s| s.avg_latency_ms).unwrap_or(f64::MAX)`,
with `f64::MAX` modelled as `⊤`. -/
def latencyKey (stats : StatsMap) (e : RpcEndpoint) : WithTop ℚ :=
  match stats.lookup e.url with
  | some s => (s.avg_latency_ms : WithTop ℚ)
  | none => ⊤

/-- Model of `LatencyBasedStrategy::select` from `src/strategies/latency_based.rs`
(stable ascending sort by latency, then the first element). -/
def latency_based_select (endpoints : List RpcEndpoint) (stats : StatsMap)
    (exclude : List String) : Option RpcEndpoint :=
  let healthy := healthyCandidates endpoints stats exclude
  if healthy.isEmpty then
    endpoints.find? (fun e => !exclude.contains e.url)
  else
    (healthy.mergeSort
      (fun a b => decide (latencyKey stats a ≤ latencyKey stats b))).head?

/-- Internal state of `RateAwareStrategy`: the `last_request` map and the
`min_interval` (seconds). -/
structure RateAwareState where
  last_request : List (String × Nat)
  min_interval : Nat
deriving DecidableEq, Repr

/-- Model of `RateAwareStrategy::new` (empty map, 1-second interval). -/
def RateAwareState.new : RateAwareState := ⟨[], 1⟩

/-- Model of `RateAwareStrategy::time_since_last`: elapsed time since the last request
to `url`, `Duration::MAX` (modelled as `⊤`) when never used.  `now` models
`Instant::now()`. -/
def time_since_last (st : RateAwareState) (now : Nat) (url : String) : WithTop Nat :=
  match st.last_request.lookup url with
  | some t => ((now - t : Nat) : WithTop Nat)
  | none => ⊤

/-- Model of `RateAwareStrategy::record_request`: overwrite the `last_request` entry
for `url` with `now` (association-list prepend; `lookup` sees the newest
binding first, matching `HashMap::insert`). -/
def record_request (st : RateAwareState) (now : Nat) (url : String) : RateAwareState :=
  { st with last_request := (url, now) :: st.last_request }

/-- Model of `RateAwareStrategy::select` from `src/strategies/rate_aware.rs`
(stable descending sort by idle time, pick the longest-idle candidate,
record the selection). -/
def rate_aware_select (st : RateAwareState) (now : Nat) (endpoints : List RpcEndpoint)
    (stats : StatsMap) (exclude : List String) : Option RpcEndpoint × RateAwareState :=
  let candidates := (healthyCandidates endpoints stats exclude).map
    (fun e => (e, time_since_last st now e.url))
  if candidates.isEmpty then
    (endpoints.find? (fun e => !exclude.contains e.url), st)
  else
    let sorted := candidates.mergeSort (fun a b => decide (b.2 ≤ a.2))
    match sorted with
    | [] => (none, st)
    | c :: _ => (some c.1, record_request st now c.1.url)

/-- A `Box<dyn SelectionStrategy>`: a select function threading the
strategy's mutable state `σ`. -/
structure StrategyM (σ : Type) where
  select : σ → List RpcEndpoint → StatsMap → List String → Option RpcEndpoint × σ

/-- Model of `FailoverStrategy` as a stateful strategy (no state). -/
def failoverM : StrategyM Unit :=
  ⟨fun s eps stats ex => (failover_select eps stats ex, s)⟩

/-- Model of `RoundRobinStrategy` as a stateful strategy (counter state). -/
def roundRobinM : StrategyM Nat :=
  ⟨fun i eps stats ex => round_robin_select i eps stats ex⟩

/-- Model of `LatencyBasedStrategy` as a stateful strategy (no state). -/
def latencyM : StrategyM Unit :=
  ⟨fun s eps stats ex => (latency_based_select eps stats ex, s)⟩

/-- Model of `RateAwareStrategy` as a stateful strategy (`last_request` map state);
`now` models the clock at selection time. -/
def rateAwareM (now : Nat) : StrategyM RateAwareState :=
  ⟨fun st eps stats ex => rate_aware_select st now eps stats ex⟩

/-- The `SelectionStrategy::select` contract of the spec, as claim C2 states
it: the result is never an excluded endpoint; some endpoint is returned
whenever a non-excluded endpoint exists (regardless of health — last-resort
fallback); `none` only when every endpoint is excluded. -/
def SelectSpec (sel : List RpcEndpoint → StatsMap → List String → Option RpcEndpoint) : Prop :=
  ∀ (endpoints : List RpcEndpoint) (stats : StatsMap) (exclude : List String),
    (∀ e, sel endpoints stats exclude = some e → e.url ∉ exclude) ∧
    ((∃ e ∈ endpoints, e.url ∉ exclude) → (sel endpoints stats exclude).isSome) ∧
    (sel endpoints stats exclude = none → ∀ e ∈ endpoints, e.url ∈ exclude)

/-- The exclusion half of the select contract, for stateful strategies: a
returned endpoint is never in the exclude set.  All four shipped strategies
satisfy it; `execute_with_url`'s no-repeat guarantee rests on it. -/
def RespectsExclude {σ : Type} (strat : StrategyM σ) : Prop :=
  ∀ (s : σ) (endpoints : List RpcEndpoint) (stats : StatsMap) (exclude : List String)
    (e : RpcEndpoint) (s' : σ),
    strat.select s endpoints stats exclude = (some e, s') → e.url ∉ exclude

/-! ## The failover execute loop (`src/pool.rs`, `RpcPool::execute_with_url`) -/

/-- Model of `DashMap::get_mut` + in-place update: update the entry for `url` if
present, no-op otherwise. -/
def updateStats (stats : StatsMap) (url : String)
    (f : EndpointStats → EndpointStats) : StatsMap :=
  stats.map (fun p => if p.1 = url then (p.1, f p.2) else p)

/-- The loop body of `RpcPool::execute_with_url` from `src/pool.rs`, together
with the trace of URLs passed to the caller's operation `op` (in invocation
order).  `fuel` starts at `endpoints.len()` (the `for _ in 0..self.endpoints.len()`
bound); `tried` is the exclude set; `stats` is threaded through failure
bookkeeping so later selections see the updated snapshot.

Modelling notes against the source:
* the shutdown / cancellation checks return `PoolShutdown` before invoking
  `op` and are not modelled (they only shorten the trace);
* on success the `record_success` write is not observable after the return
  and is elided;
* a timeout outcome is an `op` error with the timeout message, so `op`'s
  `Except.error` covers both `Ok(Err(e))` and `Err(_timeout)` branches;
* stored error text is kept unshortened; `truncate_error_message` (modelled
  byte-exactly above) only affects the stored string, which nothing in the
  loop inspects. -/
def execGo {σ α : Type} (strat : StrategyM σ) (op : String → Except String α)
    (max_consecutive_errors : Nat) (now : Nat) (endpoints : List RpcEndpoint) :
    Nat → σ → StatsMap → List String → Option String →
    Except RpcPoolError α × List String
  | 0, _, _, _, last_error =>
    (.error (.AllEndpointsFailed (last_error.getD "Unknown error")), [])
  | fuel + 1, s, stats, tried, last_error =>
    match strat.select s endpoints stats tried with
    | (none, _) => (.error (.AllEndpointsFailed (last_error.getD "Unknown error")), [])
    | (some e, s') =>
      let tried' := e.url :: tried
      match op e.url with
      | .ok v => (.ok v, [e.url])
      | .error msg =>
        let stats' := updateStats stats e.url
          (fun st => (st.record_failure msg now max_consecutive_errors).2)
        let rest := execGo strat op max_consecutive_errors now endpoints fuel s'
          stats' tried' (some msg)
        (rest.1, e.url :: rest.2)

/-- Model of `RpcPool::execute_with_url`: run the loop from the initial state with an
empty `tried` set and no last error. -/
def execute_with_url {σ α : Type} (strat : StrategyM σ) (op : String → Except String α)
    (max_consecutive_errors : Nat) (now : Nat) (endpoints : List RpcEndpoint)
    (stats : StatsMap) (s0 : σ) : Except RpcPoolError α × List String :=
  execGo strat op max_consecutive_errors now endpoints endpoints.length s0 stats [] none

/-! ## Pool construction (`src/pool.rs`, `RpcPool::new`) -/

/-- The `retain(|e| seen.insert(e.url.clone()))` pass of `RpcPool::new`:
keep an endpoint iff its URL was not seen earlier. -/
def dedupGo (seen : List String) : List RpcEndpoint → List RpcEndpoint
  | [] => []
  | e :: es =>
    if seen.contains e.url then dedupGo seen es
    else e :: dedupGo (e.url :: seen) es

/-- URL deduplication, first occurrence wins. -/
def dedup_endpoints (endpoints : List RpcEndpoint) : List RpcEndpoint :=
  dedupGo [] endpoints

/-- Model of `config.endpoints.sort_by_key(|e| e.priority)`: a stable sort by
priority ascending (Rust's `sort_by_key` is stable). -/
def sort_by_priority (endpoints : List RpcEndpoint) : List RpcEndpoint :=
  endpoints.mergeSort (fun a b => a.priority ≤ b.priority)

/-- The parts of the `RpcPool` struct the construction claims are about:
the endpoint sequence and the stats map. -/
structure Pool where
  endpoints : List RpcEndpoint
  stats : StatsMap
deriving Repr

/-- Model of `RpcPool::new` from `src/pool.rs`: reject an empty endpoint list,
deduplicate by URL (first occurrence wins), sort stably by priority
ascending, and create one fresh stats entry per endpoint. -/
def Pool.new (config_endpoints : List RpcEndpoint) : Except RpcPoolError Pool :=
  if config_endpoints.isEmpty then
    .error .NoEndpointsConfigured
  else
    let deduped := dedup_endpoints config_endpoints
    let sorted := sort_by_priority deduped
    .ok ⟨sorted, sorted.map (fun e => (e.url, EndpointStats.new e))⟩

/-! ## Tiered pool (`src/tiered.rs`) -/

/-- Model of `RequestPriority` from `src/tiered.rs`. -/
inductive RequestPriority where
  | Critical
  | Normal
  | Low
deriving DecidableEq, Repr

/-- Model of `EndpointTier` from `src/tiered.rs`. -/
inductive EndpointTier where
  | Premium
  | Standard
  | Free
deriving DecidableEq, Repr

/-- Model of `TieredPool::tier_order` from `src/tiered.rs`. -/
def tier_order (allow_critical_fallback allow_low_escalation : Bool) :
    RequestPriority → List EndpointTier
  | .Critical =>
    if allow_critical_fallback then [.Premium, .Standard, .Free] else [.Premium]
  | .Normal => [.Standard, .Free]
  | .Low =>
    if allow_low_escalation then [.Free, .Standard, .Premium] else [.Free]

/-- The tier loop of `TieredPool::execute` from `src/tiered.rs`.  `present`
models `self.pools.get(tier).is_some()`; `result` is the outcome of the
present tier's inner `pool.execute` call (each tier is attempted at most
once per request, so a function of the tier suffices). -/
def tieredGo {α : Type} (present : EndpointTier → Bool)
    (result : EndpointTier → Except RpcPoolError α) :
    List EndpointTier → Option RpcPoolError → Except RpcPoolError α
  | [], last_error => .error (last_error.getD .NoEndpointsConfigured)
  | t :: ts, last_error =>
    if present t then
      match result t with
      | .ok v => .ok v
      | .error e => tieredGo present result ts (some e)
    else
      tieredGo present result ts last_error

/-- Model of `TieredPool::execute` from `src/tiered.rs`: walk the computed tier order,
return the first inner success, else the last inner error, else
`NoEndpointsConfigured`. -/
def tiered_execute {α : Type} (allow_critical_fallback allow_low_escalation : Bool)
    (present : EndpointTier → Bool) (result : EndpointTier → Except RpcPoolError α)
    (priority : RequestPriority) : Except RpcPoolError α :=
  tieredGo present result
    (tier_order allow_critical_fallback allow_low_escalation priority) none

/-- The tier loop restricted to the present tiers (the absent ones are
skipped by `tieredGo` without touching `last_error`): used to relate
`tiered_execute` to the filtered tier order. -/
def presentGo {α : Type} (result : EndpointTier → Except RpcPoolError α) :
    List EndpointTier → Option RpcPoolError → Except RpcPoolError α
  | [], last_error => .error (last_error.getD .NoEndpointsConfigured)
  | t :: ts, last_error =>
    match result t with
    | .ok v => .ok v
    | .error e => presentGo result ts (some e)

/-! ## Spec-worded comparison definitions -/

/-- Claim C5's "some field is known", read literally over the capability
block: any of its optional fields is known.  (The source's `has_any_data`
only inspects the three grading-relevant fields; this definition exists to
compare the claim's wording with the code.) -/
def claimC5_any_field_known (c : EndpointCapabilities) : Bool :=
  c.supports_eth_get_logs.isSome || c.max_batch_size.isSome || c.max_block_range.isSome ||
    c.supports_debug_trace.isSome || c.rate_limit_rps.isSome

/-- The priority adjustment exactly as claim C5 words it: 0 when no field is
known, +10 when some field is known but `supports_logs` is false or unknown,
otherwise -20 / -10 / 0 by the A / B / C conditions. -/
def claimC5_priority_adjustment (c : EndpointCapabilities) : Int :=
  if ¬ claimC5_any_field_known c then 0
  else if c.supports_eth_get_logs.getD false = false then 10
  else
    let b := c.max_batch_size.getD 0
    let r := c.max_block_range.getD 0
    if (b = 0 ∨ 100 ≤ b) ∧ (r = 0 ∨ 10000 ≤ r) then -20
    else if (b = 0 ∨ 10 ≤ b) ∧ (r = 0 ∨ 1000 ≤ r) then -10
    else 0

/-- A 513-byte UTF-8 string whose 512-byte boundary falls in the middle of a
character: 511 ASCII characters followed by the 2-byte character `é`. -/
def C7_failing_input : List Char := List.replicate 511 'a' ++ ['é']

/-!
# Theorems

The claim theorems, with their helper lemmas.
-/

/-! ## Helper lemmas: stats counters -/

/-- Any single stats operation preserves the counter identity. -/
lemma counter_id_step (s : EndpointStats) (op : StatsOp)
    (h : s.successful_requests + s.failed_requests = s.total_requests) :
    (StatsOp.apply s op).successful_requests + (StatsOp.apply s op).failed_requests =
      (StatsOp.apply s op).total_requests := by
  cases op with
  | success l =>
    simp [StatsOp.apply, EndpointStats.record_success, EndpointStats.update_latency]
    omega
  | failure e n m =>
    simp only [StatsOp.apply, EndpointStats.record_failure]
    split <;> simp <;> omega
  | recovered =>
    simp [StatsOp.apply, EndpointStats.mark_recovered]; omega
  | latency l =>
    simp [StatsOp.apply, EndpointStats.update_latency]; omega

/-- The counter identity is preserved along any operation sequence. -/
lemma runStatsOps_counter :
    ∀ (ops : List StatsOp) (s : EndpointStats),
      s.successful_requests + s.failed_requests = s.total_requests →
      (runStatsOps s ops).successful_requests + (runStatsOps s ops).failed_requests =
        (runStatsOps s ops).total_requests
  | [], s, h => h
  | op :: ops, s, h =>
    runStatsOps_counter ops (StatsOp.apply s op) (counter_id_step s op h)

/-! ## C9 -/

/-- C9: for every sequence of `record_success`, `record_failure`,
`mark_recovered` and `update_latency` operations applied to a freshly
created `EndpointStats`, the identity
`successful_requests + failed_requests = total_requests` holds after every
step (every prefix of operations is itself such a sequence). -/
theorem C9_counter_identity (endpoint : RpcEndpoint) (ops : List StatsOp) :
    (runStatsOps (EndpointStats.new endpoint) ops).successful_requests +
      (runStatsOps (EndpointStats.new endpoint) ops).failed_requests =
      (runStatsOps (EndpointStats.new endpoint) ops).total_requests :=
  runStatsOps_counter ops (EndpointStats.new endpoint) rfl

/-! ## C8 -/

/-- C8: `record_failure` increments `total_requests`, `failed_requests` and
`consecutive_errors`, returns `true` iff the incremented `consecutive_errors`
reaches `max_consecutive` (and sets `is_healthy := false` exactly then,
leaving it unchanged otherwise, hence never flipping `false` to `true`);
`record_success` sets `is_healthy := true`, resets `consecutive_errors` and
leaves `recovery_attempts` unchanged. -/
theorem C8_record_transitions (s : EndpointStats) (err : String) (now lat maxc : Nat) :
    ((s.record_failure err now maxc).2.total_requests = s.total_requests + 1) ∧
    ((s.record_failure err now maxc).2.failed_requests = s.failed_requests + 1) ∧
    ((s.record_failure err now maxc).2.consecutive_errors = s.consecutive_errors + 1) ∧
    ((s.record_failure err now maxc).1 = true ↔ maxc ≤ s.consecutive_errors + 1) ∧
    ((s.record_failure err now maxc).2.is_healthy =
      if maxc ≤ s.consecutive_errors + 1 then false else s.is_healthy) ∧
    (s.is_healthy = false → (s.record_failure err now maxc).2.is_healthy = false) ∧
    ((s.record_success lat).is_healthy = true) ∧
    ((s.record_success lat).consecutive_errors = 0) ∧
    ((s.record_success lat).recovery_attempts = s.recovery_attempts) := by
  simp only [EndpointStats.record_failure, EndpointStats.record_success,
    EndpointStats.update_latency, ge_iff_le]
  split <;> simp_all

/-- Witness for C8 at a concrete stats record. -/
theorem C8_record_witness :
    (((EndpointStats.new (RpcEndpoint.new "https://rpc1.example")).record_failure
        "boom" 7 3).2.total_requests =
      (EndpointStats.new (RpcEndpoint.new "https://rpc1.example")).total_requests + 1) ∧
    (((EndpointStats.new (RpcEndpoint.new "https://rpc1.example")).record_failure
        "boom" 7 3).2.failed_requests =
      (EndpointStats.new (RpcEndpoint.new "https://rpc1.example")).failed_requests + 1) ∧
    (((EndpointStats.new (RpcEndpoint.new "https://rpc1.example")).record_failure
        "boom" 7 3).2.consecutive_errors =
      (EndpointStats.new (RpcEndpoint.new "https://rpc1.example")).consecutive_errors + 1) ∧
    (((EndpointStats.new (RpcEndpoint.new "https://rpc1.example")).record_failure
        "boom" 7 3).1 = true ↔
      3 ≤ (EndpointStats.new (RpcEndpoint.new "https://rpc1.example")).consecutive_errors + 1) ∧
    (((EndpointStats.new (RpcEndpoint.new "https://rpc1.example")).record_failure
        "boom" 7 3).2.is_healthy =
      if 3 ≤ (EndpointStats.new (RpcEndpoint.new "https://rpc1.example")).consecutive_errors + 1
        then false
        else (EndpointStats.new (RpcEndpoint.new "https://rpc1.example")).is_healthy) ∧
    ((EndpointStats.new (RpcEndpoint.new "https://rpc1.example")).is_healthy = false →
      ((EndpointStats.new (RpcEndpoint.new "https://rpc1.example")).record_failure
        "boom" 7 3).2.is_healthy = false) ∧
    (((EndpointStats.new (RpcEndpoint.new "https://rpc1.example")).record_success 42).is_healthy
      = true) ∧
    (((EndpointStats.new (RpcEndpoint.new "https://rpc1.example")).record_success
        42).consecutive_errors = 0) ∧
    (((EndpointStats.new (RpcEndpoint.new "https://rpc1.example")).record_success
        42).recovery_attempts =
      (EndpointStats.new (RpcEndpoint.new "https://rpc1.example")).recovery_attempts) :=
  C8_record_transitions (EndpointStats.new (RpcEndpoint.new "https://rpc1.example")) "boom" 7 42 3

/-! ## C4 -/

/-- The backoff computation equals the idealized `min (B * 2 ^ k) 300`
(the `u64` saturations never change the capped result). -/
lemma current_retry_delay_eq (s : EndpointStats) (B : Nat) :
    s.current_retry_delay B = min (B * 2 ^ s.recovery_attempts) 300 := by
  have hdef : s.current_retry_delay B =
      min (min (B * min (2 ^ s.recovery_attempts) (2 ^ 64 - 1)) (2 ^ 64 - 1)) 300 := rfl
  rw [hdef]
  have h300 : (300 : Nat) ≤ 2 ^ 64 - 1 := by norm_num
  by_cases h : 2 ^ s.recovery_attempts ≤ 2 ^ 64 - 1
  · rw [min_eq_left h]
    omega
  · push_neg at h
    rw [min_eq_right (le_of_lt h)]
    rcases Nat.eq_zero_or_pos B with hB | hB
    · subst hB; simp
    · have h1 : 2 ^ 64 - 1 ≤ B * (2 ^ 64 - 1) := Nat.le_mul_of_pos_left _ hB
      have h3 : 2 ^ s.recovery_attempts ≤ B * 2 ^ s.recovery_attempts :=
        Nat.le_mul_of_pos_left _ hB
      omega

/-- C4 counterexample: with `recovery_attempts = 0` and a base delay of
301 seconds, `current_retry_delay` returns 300, not the base delay 301
claimed for the zero-attempts case. -/
theorem C4_counterexample :
    (EndpointStats.new (RpcEndpoint.new "https://rpc.example")).recovery_attempts = 0 ∧
    (EndpointStats.new (RpcEndpoint.new "https://rpc.example")).current_retry_delay 301 = 300 ∧
    (300 : Nat) ≠ 301 := by
  refine ⟨rfl, ?_, by decide⟩
  rw [current_retry_delay_eq]
  rfl

/-- C4 (amended): `current_retry_delay B` equals `min (B * 2 ^ k) 300`
seconds for `k = recovery_attempts`, never exceeds 300 seconds, equals
`min B 300` (not `B`) when `recovery_attempts = 0`, and for fixed `B` is
nondecreasing in `recovery_attempts`. -/
theorem C4_backoff_amended (s s' : EndpointStats) (B : Nat)
    (h : s.recovery_attempts ≤ s'.recovery_attempts) :
    s.current_retry_delay B = min (B * 2 ^ s.recovery_attempts) 300 ∧
    s.current_retry_delay B ≤ 300 ∧
    (s.recovery_attempts = 0 → s.current_retry_delay B = min B 300) ∧
    s.current_retry_delay B ≤ s'.current_retry_delay B := by
  refine ⟨current_retry_delay_eq s B, ?_, ?_, ?_⟩
  · rw [current_retry_delay_eq]; exact min_le_right _ _
  · intro h0; rw [current_retry_delay_eq, h0]; simp
  · rw [current_retry_delay_eq, current_retry_delay_eq]
    exact min_le_min
      (Nat.mul_le_mul_left _ (Nat.pow_le_pow_right (by norm_num) h)) le_rfl

/-- Witness for C4 at a concrete fresh stats record and base delay 5. -/
theorem C4_backoff_witness :
    (EndpointStats.new (RpcEndpoint.new "https://a.example")).recovery_attempts ≤
      (EndpointStats.new (RpcEndpoint.new "https://a.example")).recovery_attempts ∧
    ((EndpointStats.new (RpcEndpoint.new "https://a.example")).current_retry_delay 5 =
        min (5 * 2 ^ (EndpointStats.new
          (RpcEndpoint.new "https://a.example")).recovery_attempts) 300 ∧
      (EndpointStats.new (RpcEndpoint.new "https://a.example")).current_retry_delay 5 ≤ 300 ∧
      ((EndpointStats.new (RpcEndpoint.new "https://a.example")).recovery_attempts = 0 →
        (EndpointStats.new (RpcEndpoint.new "https://a.example")).current_retry_delay 5 =
          min 5 300) ∧
      (EndpointStats.new (RpcEndpoint.new "https://a.example")).current_retry_delay 5 ≤
        (EndpointStats.new (RpcEndpoint.new "https://a.example")).current_retry_delay 5) :=
  ⟨le_rfl, C4_backoff_amended _ _ 5 le_rfl⟩

/-! ## C5 -/

/-- Propositional characterization of `EndpointCapabilities.grade`. -/
lemma grade_spec (c : EndpointCapabilities) :
    c.grade =
      if c.has_any_data = false then .D
      else if c.supports_eth_get_logs.getD false = false then .D
      else if (c.max_batch_size.getD 0 = 0 ∨ 100 ≤ c.max_batch_size.getD 0) ∧
              (c.max_block_range.getD 0 = 0 ∨ 10000 ≤ c.max_block_range.getD 0) then .A
      else if (c.max_batch_size.getD 0 = 0 ∨ 10 ≤ c.max_batch_size.getD 0) ∧
              (c.max_block_range.getD 0 = 0 ∨ 1000 ≤ c.max_block_range.getD 0) then .B
      else .C := by
  unfold EndpointCapabilities.grade
  split_ifs with h1 h2 h3 h4 h5 h6 h7 h8 h9 h10 h11 <;> simp_all <;> try omega
  split_ifs with g1 g2
  · rcases g1 with ⟨gb, gr⟩
    rcases h4 gb with ⟨hr1, hr2⟩
    omega
  · rcases g2 with ⟨gb, gr⟩
    rcases h5 gb with ⟨hr1, hr2⟩
    omega
  · rfl

/-- C5 counterexample: a capability block whose only known field is
`supports_debug_trace` has, per the claim's wording, "some field known" and
unknown `supports_logs`, so the claim demands adjustment +10; the code's
`priority_adjustment` returns 0 for it (its `has_any_data` test ignores
`supports_debug_trace` and `rate_limit_rps`). -/
theorem C5_counterexample :
    EndpointCapabilities.priority_adjustment ⟨none, none, none, some true, false, none⟩ = 0 ∧
    claimC5_priority_adjustment ⟨none, none, none, some true, false, none⟩ = 10 ∧
    (0 : Int) ≠ 10 := by
  decide

/-- C5 (amended): the grading function is total and pure, and with "known
field" meaning one of the three grading-relevant fields (`supports_logs`,
`max_batch`, `max_range`, the fields `has_any_data` inspects): no known
field gives grade D with adjustment 0; a known field with `supports_logs`
false-or-unknown gives grade D with adjustment +10; with
`supports_logs = true`, `b = max_batch.unwrap_or 0` and
`r = max_range.unwrap_or 0`, the A / B / C conditions give grades A / B / C
with adjustments -20 / -10 / 0. -/
theorem C5_grading_amended (c : EndpointCapabilities) :
    (c.has_any_data = false → c.grade = .D ∧ c.priority_adjustment = 0) ∧
    (c.has_any_data = true → c.supports_eth_get_logs.getD false = false →
      c.grade = .D ∧ c.priority_adjustment = 10) ∧
    (c.supports_eth_get_logs = some true →
      (let b := c.max_batch_size.getD 0
       let r := c.max_block_range.getD 0
       ((b = 0 ∨ 100 ≤ b) ∧ (r = 0 ∨ 10000 ≤ r) →
          c.grade = .A ∧ c.priority_adjustment = -20) ∧
       (¬ ((b = 0 ∨ 100 ≤ b) ∧ (r = 0 ∨ 10000 ≤ r)) →
          (b = 0 ∨ 10 ≤ b) ∧ (r = 0 ∨ 1000 ≤ r) →
          c.grade = .B ∧ c.priority_adjustment = -10) ∧
       (¬ ((b = 0 ∨ 100 ≤ b) ∧ (r = 0 ∨ 10000 ≤ r)) →
          ¬ ((b = 0 ∨ 10 ≤ b) ∧ (r = 0 ∨ 1000 ≤ r)) →
          c.grade = .C ∧ c.priority_adjustment = 0))) := by
  refine ⟨?_, ?_, ?_⟩
  · intro h
    have hgrade : c.grade = .D := by
      rw [grade_spec, h]; rfl
    exact ⟨hgrade, by simp [EndpointCapabilities.priority_adjustment, hgrade, h]⟩
  · intro hdata hlogs
    have hgrade : c.grade = .D := by
      rw [grade_spec, hdata, hlogs]; rfl
    exact ⟨hgrade, by simp [EndpointCapabilities.priority_adjustment, hgrade, hdata]⟩
  · intro hlogs
    have hdata : c.has_any_data = true := by
      simp [EndpointCapabilities.has_any_data, hlogs]
    have hget : c.supports_eth_get_logs.getD false = true := by rw [hlogs]; rfl
    intro b r
    refine ⟨?_, ?_, ?_⟩
    · intro hA
      have hgrade : c.grade = .A := by
        rw [grade_spec, hdata, hget]
        simp only [Bool.true_eq_false, if_false]
        rw [if_pos hA]
      exact ⟨hgrade, by simp [EndpointCapabilities.priority_adjustment, hgrade]⟩
    · intro hnA hB
      have hgrade : c.grade = .B := by
        rw [grade_spec, hdata, hget]
        simp only [Bool.true_eq_false, if_false]
        rw [if_neg hnA, if_pos hB]
      exact ⟨hgrade, by simp [EndpointCapabilities.priority_adjustment, hgrade]⟩
    · intro hnA hnB
      have hgrade : c.grade = .C := by
        rw [grade_spec, hdata, hget]
        simp only [Bool.true_eq_false, if_false]
        rw [if_neg hnA, if_neg hnB]
      exact ⟨hgrade, by simp [EndpointCapabilities.priority_adjustment, hgrade]⟩

/-- Witness for C5 at the grade-A capability block
`(supports_logs = true, max_batch = 100, max_range = 10000)`. -/
theorem C5_grading_witness :
    (⟨some true, some 100, some 10000, none, false, none⟩ :
        EndpointCapabilities).grade = .A ∧
    (⟨some true, some 100, some 10000, none, false, none⟩ :
        EndpointCapabilities).priority_adjustment = -20 :=
  ((C5_grading_amended ⟨some true, some 100, some 10000, none, false, none⟩).2.2 rfl).1
    (by norm_num)

/-! ## C7 -/

/-! ## Helper lemmas: strategies -/

/-- Membership in the shared candidate list. -/
lemma mem_healthyCandidates {endpoints : List RpcEndpoint} {stats : StatsMap}
    {exclude : List String} {e : RpcEndpoint} :
    e ∈ healthyCandidates endpoints stats exclude ↔
      e ∈ endpoints ∧ e.url ∉ exclude ∧ healthFilter stats e = true := by
  simp [healthyCandidates, List.mem_filter, and_assoc]
  tauto

/-- The three claim-C2 properties follow from the no-excluded-result and
some-whenever-possible properties. -/
lemma selectSpec_of (sel : List RpcEndpoint → StatsMap → List String → Option RpcEndpoint)
    (h1 : ∀ endpoints stats exclude e, sel endpoints stats exclude = some e → e.url ∉ exclude)
    (h2 : ∀ endpoints stats exclude, (∃ e ∈ endpoints, e.url ∉ exclude) →
      (sel endpoints stats exclude).isSome) :
    SelectSpec sel := by
  intro endpoints stats exclude
  refine ⟨h1 endpoints stats exclude, h2 endpoints stats exclude, fun hnone e he => ?_⟩
  by_contra hx
  have hs := h2 endpoints stats exclude ⟨e, he, hx⟩
  rw [hnone] at hs
  simp at hs

lemma failover_select_not_excluded {endpoints : List RpcEndpoint} {stats : StatsMap}
    {exclude : List String} {e : RpcEndpoint}
    (h : failover_select endpoints stats exclude = some e) : e.url ∉ exclude := by
  simp only [failover_select] at h
  split at h
  · rename_i e2 heq
    cases h
    have hmem := List.mem_of_find?_eq_some heq
    rw [List.mem_filter] at hmem
    simpa using hmem.2
  · simpa using List.find?_some h

lemma failover_select_isSome {endpoints : List RpcEndpoint} {stats : StatsMap}
    {exclude : List String} (h : ∃ e ∈ endpoints, e.url ∉ exclude) :
    (failover_select endpoints stats exclude).isSome := by
  simp only [failover_select]
  split
  · simp
  · rw [List.find?_isSome]
    obtain ⟨e, he, hx⟩ := h
    exact ⟨e, he, by simpa using hx⟩

lemma round_robin_select_not_excluded {i : Nat} {endpoints : List RpcEndpoint}
    {stats : StatsMap} {exclude : List String} {e : RpcEndpoint}
    (h : (round_robin_select i endpoints stats exclude).1 = some e) : e.url ∉ exclude := by
  simp only [round_robin_select] at h
  split at h
  · simp only at h
    simpa using List.find?_some h
  · simp only at h
    have hmem := List.getElem?_mem h
    exact (mem_healthyCandidates.mp hmem).2.1

lemma round_robin_select_isSome {i : Nat} {endpoints : List RpcEndpoint}
    {stats : StatsMap} {exclude : List String} (h : ∃ e ∈ endpoints, e.url ∉ exclude) :
    ((round_robin_select i endpoints stats exclude).1).isSome := by
  simp only [round_robin_select]
  split
  · simp only
    rw [List.find?_isSome]
    obtain ⟨e, he, hx⟩ := h
    exact ⟨e, he, by simpa using hx⟩
  · rename_i hne
    simp only
    have hlen : 0 < (healthyCandidates endpoints stats exclude).length := by
      rw [List.isEmpty_iff] at hne
      exact List.length_pos.mpr hne
    rw [List.getElem?_eq_getElem (Nat.mod_lt _ hlen)]
    rfl

lemma latency_based_select_not_excluded {endpoints : List RpcEndpoint} {stats : StatsMap}
    {exclude : List String} {e : RpcEndpoint}
    (h : latency_based_select endpoints stats exclude = some e) : e.url ∉ exclude := by
  simp only [latency_based_select] at h
  split at h
  · simpa using List.find?_some h
  · have hmem1 : e ∈ (healthyCandidates endpoints stats exclude).mergeSort
        (fun a b => decide (latencyKey stats a ≤ latencyKey stats b)) :=
      List.mem_of_mem_head? (by rw [Option.mem_def]; exact h)
    exact (mem_healthyCandidates.mp (List.mem_mergeSort.mp hmem1)).2.1

lemma latency_based_select_isSome {endpoints : List RpcEndpoint} {stats : StatsMap}
    {exclude : List String} (h : ∃ e ∈ endpoints, e.url ∉ exclude) :
    (latency_based_select endpoints stats exclude).isSome := by
  simp only [latency_based_select]
  split
  · rw [List.find?_isSome]
    obtain ⟨e, he, hx⟩ := h
    exact ⟨e, he, by simpa using hx⟩
  · rename_i hne
    rw [List.isEmpty_iff] at hne
    rw [Option.isSome_iff_ne_none, ne_eq, List.head?_eq_none_iff]
    intro hnil
    exact hne (by simpa [List.length_eq_zero] using congrArg List.length hnil)

lemma rate_aware_select_not_excluded {st : RateAwareState} {now : Nat}
    {endpoints : List RpcEndpoint} {stats : StatsMap} {exclude : List String} {e : RpcEndpoint}
    (h : (rate_aware_select st now endpoints stats exclude).1 = some e) : e.url ∉ exclude := by
  simp only [rate_aware_select] at h
  split at h
  · simp only at h
    simpa using List.find?_some h
  · split at h
    · simp at h
    · rename_i c rest hp
      simp only at h
      have he : c.1 = e := by simpa using h
      have hmem1 : c ∈ (List.map (fun e => (e, time_since_last st now e.url))
          (healthyCandidates endpoints stats exclude)).mergeSort
          (fun a b => decide (b.2 ≤ a.2)) := by
        rw [hp]; exact List.mem_cons_self c rest
      have hmem2 := List.mem_mergeSort.mp hmem1
      rw [List.mem_map] at hmem2
      obtain ⟨e3, he3, heq⟩ := hmem2
      have he3e : e3 = e := by rw [← he, ← heq]
      rw [← he3e]
      exact (mem_healthyCandidates.mp he3).2.1

lemma rate_aware_select_isSome {st : RateAwareState} {now : Nat}
    {endpoints : List RpcEndpoint} {stats : StatsMap} {exclude : List String}
    (h : ∃ e ∈ endpoints, e.url ∉ exclude) :
    ((rate_aware_select st now endpoints stats exclude).1).isSome := by
  simp only [rate_aware_select]
  split
  · simp only
    rw [List.find?_isSome]
    obtain ⟨e, he, hx⟩ := h
    exact ⟨e, he, by simpa using hx⟩
  · rename_i hne
    rw [List.isEmpty_iff] at hne
    split
    · rename_i hnil
      exfalso
      exact hne (by simpa [List.length_eq_zero] using congrArg List.length hnil)
    · rfl

/-! ## C2 -/

/-- C2: all four selection strategies satisfy the select contract — the
result is never an excluded endpoint, some endpoint is returned whenever a
non-excluded one exists (even if every non-excluded endpoint is unhealthy),
and `none` is returned only when every endpoint is excluded. -/
theorem C2_select_contract :
    SelectSpec failover_select ∧
    (∀ i : Nat, SelectSpec (fun endpoints stats exclude =>
      (round_robin_select i endpoints stats exclude).1)) ∧
    SelectSpec latency_based_select ∧
    (∀ (st : RateAwareState) (now : Nat), SelectSpec (fun endpoints stats exclude =>
      (rate_aware_select st now endpoints stats exclude).1)) := by
  refine ⟨?_, ?_, ?_, ?_⟩
  · exact selectSpec_of _ (fun _ _ _ _ => failover_select_not_excluded)
      (fun _ _ _ => failover_select_isSome)
  · intro i
    exact selectSpec_of _ (fun _ _ _ _ => round_robin_select_not_excluded)
      (fun _ _ _ => round_robin_select_isSome)
  · exact selectSpec_of _ (fun _ _ _ _ => latency_based_select_not_excluded)
      (fun _ _ _ => latency_based_select_isSome)
  · intro st now
    exact selectSpec_of _ (fun _ _ _ _ => rate_aware_select_not_excluded)
      (fun _ _ _ => rate_aware_select_isSome)

/-- Witness for C2: the contract instantiated at one endpoint, an empty
stats snapshot and an empty exclude set, for each strategy. -/
theorem C2_select_contract_witness :
    (failover_select [RpcEndpoint.new "https://w.example"] [] []).isSome ∧
    ((round_robin_select 0 [RpcEndpoint.new "https://w.example"] [] []).1).isSome ∧
    (latency_based_select [RpcEndpoint.new "https://w.example"] [] []).isSome ∧
    ((rate_aware_select RateAwareState.new 0 [RpcEndpoint.new "https://w.example"] [] []).1).isSome :=
  ⟨(C2_select_contract.1 _ _ _).2.1 ⟨_, List.mem_singleton.mpr rfl, List.not_mem_nil _⟩,
   (C2_select_contract.2.1 0 _ _ _).2.1 ⟨_, List.mem_singleton.mpr rfl, List.not_mem_nil _⟩,
   (C2_select_contract.2.2.1 _ _ _).2.1 ⟨_, List.mem_singleton.mpr rfl, List.not_mem_nil _⟩,
   (C2_select_contract.2.2.2 RateAwareState.new 0 _ _ _).2.1
     ⟨_, List.mem_singleton.mpr rfl, List.not_mem_nil _⟩⟩

/-! ## Helper lemmas: pool construction -/

/-- Deduplication only removes elements (it is a sublist of the input). -/
lemma dedupGo_sublist : ∀ (l : List RpcEndpoint) (seen : List String), List.Sublist (dedupGo seen l) l
  | [], _ => List.Sublist.slnil
  | e :: es, seen => by
    rw [dedupGo]
    split
    · exact List.Sublist.cons e (dedupGo_sublist es seen)
    · exact List.Sublist.cons₂ e (dedupGo_sublist es (e.url :: seen))

/-- First occurrence wins: for any URL not already seen, the first element
of the deduplicated list carrying it is the first element of the input
carrying it. -/
lemma dedupGo_find? (u : String) :
    ∀ (l : List RpcEndpoint) (seen : List String), u ∉ seen →
      (dedupGo seen l).find? (fun e => e.url == u) = l.find? (fun e => e.url == u)
  | [], _, _ => rfl
  | e :: es, seen, hu => by
    rw [dedupGo]
    split
    · rename_i hc
      have hne : (e.url == u) = false := by
        rw [beq_eq_false_iff_ne]
        intro heq
        exact hu (heq ▸ (by simpa using hc))
      rw [List.find?_cons_of_neg _ (by simp [hne])]
      exact dedupGo_find? u es seen hu
    · rename_i hc
      by_cases heq : e.url = u
      · rw [List.find?_cons_of_pos _ (by simp [heq]), List.find?_cons_of_pos _ (by simp [heq])]
      · rw [List.find?_cons_of_neg _ (by simp [heq]), List.find?_cons_of_neg _ (by simp [heq])]
        refine dedupGo_find? u es (e.url :: seen) ?_
        intro hmem
        rcases List.mem_cons.mp hmem with h | h
        · exact heq h.symm
        · exact hu h

/-- The deduplicated list has pairwise-distinct URLs, none of them already
seen. -/
lemma dedupGo_urls_nodup :
    ∀ (l : List RpcEndpoint) (seen : List String),
      ((dedupGo seen l).map (fun e => e.url)).Nodup ∧
      ∀ e ∈ dedupGo seen l, e.url ∉ seen
  | [], _ => ⟨List.nodup_nil, fun e he => absurd he (List.not_mem_nil e)⟩
  | e :: es, seen => by
    rw [dedupGo]
    split
    · rename_i hc
      exact dedupGo_urls_nodup es seen
    · rename_i hc
      have ih := dedupGo_urls_nodup es (e.url :: seen)
      refine ⟨?_, ?_⟩
      · rw [List.map_cons, List.nodup_cons]
        refine ⟨?_, ih.1⟩
        rw [List.mem_map]
        rintro ⟨f, hf, hfe⟩
        exact (ih.2 f hf) (hfe ▸ List.mem_cons_self _ _)
      · intro f hf
        rw [List.mem_cons] at hf
        rcases hf with rfl | hf
        · simpa using hc
        · exact fun hmem => (ih.2 f hf) (List.mem_cons_of_mem _ hmem)

/-- Looking up an endpoint's URL in the freshly built stats map returns its
fresh stats entry, provided URLs are pairwise distinct. -/
lemma lookup_map_new :
    ∀ (l : List RpcEndpoint), ((l.map (fun e => e.url)).Nodup) →
      ∀ e ∈ l, (l.map (fun e => (e.url, EndpointStats.new e))).lookup e.url =
        some (EndpointStats.new e)
  | [], _, e, he => absurd he (List.not_mem_nil e)
  | f :: fs, hnodup, e, he => by
    rw [List.map_cons, List.nodup_cons] at hnodup
    rw [List.mem_cons] at he
    rcases he with rfl | he
    · simp [List.lookup]
    · have hne : (e.url == f.url) = false := by
        rw [beq_eq_false_iff_ne]
        intro heq
        exact hnodup.1 (heq ▸ (List.mem_map.mpr ⟨e, he, rfl⟩))
      rw [List.map_cons, List.lookup_cons]
      simp only [hne]
      exact lookup_map_new fs hnodup.2 e he

/-! ## C3 -/

/-- C3: `RpcPool::new` errors with `NoEndpointsConfigured` exactly on an
empty endpoint list; on success the endpoint sequence is the input with
duplicate URLs removed (first occurrence wins: the first element carrying
any URL is the input's first element carrying it), stably sorted by
priority ascending (≤-ordered pairs of the deduplicated order, in
particular equal-priority pairs, keep their relative order), with one fresh
healthy stats entry per endpoint. -/
theorem C3_pool_construction (config_endpoints : List RpcEndpoint) :
    (Pool.new config_endpoints = .error .NoEndpointsConfigured ↔ config_endpoints = []) ∧
    (∀ pool : Pool, Pool.new config_endpoints = .ok pool →
      pool.endpoints = sort_by_priority (dedup_endpoints config_endpoints) ∧
      List.Sublist (dedup_endpoints config_endpoints) config_endpoints ∧
      ((dedup_endpoints config_endpoints).map (fun e => e.url)).Nodup ∧
      (∀ u : String, (dedup_endpoints config_endpoints).find? (fun e => e.url == u) =
        config_endpoints.find? (fun e => e.url == u)) ∧
      pool.endpoints.Perm (dedup_endpoints config_endpoints) ∧
      pool.endpoints.Pairwise (fun a b => a.priority ≤ b.priority) ∧
      (∀ a b : RpcEndpoint, List.Sublist [a, b] (dedup_endpoints config_endpoints) →
        a.priority ≤ b.priority → List.Sublist [a, b] pool.endpoints) ∧
      (∀ e ∈ pool.endpoints, pool.stats.lookup e.url = some (EndpointStats.new e) ∧
        (EndpointStats.new e).is_healthy = true) ∧
      pool.stats.length = pool.endpoints.length) := by
  have htrans : ∀ (a b c : RpcEndpoint),
      (fun a b : RpcEndpoint => decide (a.priority ≤ b.priority)) a b →
      (fun a b : RpcEndpoint => decide (a.priority ≤ b.priority)) b c →
      (fun a b : RpcEndpoint => decide (a.priority ≤ b.priority)) a c := by
    intro a b c hab hbc
    exact decide_eq_true (le_trans (of_decide_eq_true hab) (of_decide_eq_true hbc))
  have htotal : ∀ (a b : RpcEndpoint),
      ((fun a b : RpcEndpoint => decide (a.priority ≤ b.priority)) a b ||
       (fun a b : RpcEndpoint => decide (a.priority ≤ b.priority)) b a) = true := by
    intro a b
    rcases Nat.le_total a.priority b.priority with h | h <;> simp [h]
  constructor
  · cases config_endpoints with
    | nil => simp [Pool.new]
    | cons e0 es0 => simp [Pool.new]
  · intro pool h
    cases config_endpoints with
    | nil => simp [Pool.new] at h
    | cons e0 es0 =>
      simp only [Pool.new, List.isEmpty_cons, Bool.false_eq_true, if_false,
        Except.ok.injEq] at h
      subst h
      refine ⟨rfl, dedupGo_sublist _ _, (dedupGo_urls_nodup (e0 :: es0) []).1,
        fun u => dedupGo_find? u (e0 :: es0) [] (List.not_mem_nil u),
        List.mergeSort_perm _ _, ?_, ?_, ?_, by simp⟩
      · exact (List.sorted_mergeSort htrans htotal _).imp (fun hd => of_decide_eq_true hd)
      · intro a b hsub hle
        exact List.pair_sublist_mergeSort htrans htotal (decide_eq_true hle) hsub
      · intro e he
        have hnodupS : ((sort_by_priority (dedup_endpoints (e0 :: es0))).map
            (fun e => e.url)).Nodup := by
          have hperm := (List.mergeSort_perm (dedup_endpoints (e0 :: es0))
            (fun a b => decide (a.priority ≤ b.priority))).map (fun e => e.url)
          exact hperm.nodup_iff.mpr (dedupGo_urls_nodup (e0 :: es0) []).1
        exact ⟨lookup_map_new _ hnodupS e he, rfl⟩

/-- Witness for C3 at a concrete one-endpoint configuration. -/
theorem C3_pool_construction_witness :
    (Pool.new [RpcEndpoint.new "https://w3.example"] =
      Except.ok ⟨[RpcEndpoint.new "https://w3.example"],
        [("https://w3.example", EndpointStats.new (RpcEndpoint.new "https://w3.example"))]⟩) ∧
    (⟨[RpcEndpoint.new "https://w3.example"],
        [("https://w3.example", EndpointStats.new (RpcEndpoint.new "https://w3.example"))]⟩ :
      Pool).endpoints.Pairwise (fun a b => a.priority ≤ b.priority) :=
  have hok : Pool.new [RpcEndpoint.new "https://w3.example"] =
      Except.ok ⟨[RpcEndpoint.new "https://w3.example"],
        [("https://w3.example", EndpointStats.new (RpcEndpoint.new "https://w3.example"))]⟩ := by
    simp [Pool.new, dedup_endpoints, dedupGo, sort_by_priority, List.mergeSort_singleton,
      RpcEndpoint.new]
  ⟨hok, (((((((C3_pool_construction [RpcEndpoint.new "https://w3.example"]).2 _
    hok).2).2).2).2).2).1⟩

/-! ## C10 -/

/-- C10: endpoints with no entry in the stats snapshot are treated as
healthy by every strategy's health filter, so they are normal candidates
(not fallbacks), and each of the four strategies can return an endpoint
with no statistics at all (here: a fresh pool with an empty snapshot). -/
theorem C10_missing_stats_treated_healthy :
    (∀ (stats : StatsMap) (e : RpcEndpoint), stats.lookup e.url = none →
      healthFilter stats e = true) ∧
    (∀ (endpoints : List RpcEndpoint) (stats : StatsMap) (exclude : List String)
        (e : RpcEndpoint), e ∈ endpoints → e.url ∉ exclude →
      stats.lookup e.url = none → e ∈ healthyCandidates endpoints stats exclude) ∧
    (([] : StatsMap).lookup (RpcEndpoint.new "https://nostats.example").url = none) ∧
    (failover_select [RpcEndpoint.new "https://nostats.example"] [] [] =
      some (RpcEndpoint.new "https://nostats.example")) ∧
    ((round_robin_select 0 [RpcEndpoint.new "https://nostats.example"] [] []).1 =
      some (RpcEndpoint.new "https://nostats.example")) ∧
    (latency_based_select [RpcEndpoint.new "https://nostats.example"] [] [] =
      some (RpcEndpoint.new "https://nostats.example")) ∧
    ((rate_aware_select RateAwareState.new 0 [RpcEndpoint.new "https://nostats.example"]
        [] []).1 = some (RpcEndpoint.new "https://nostats.example")) := by
  refine ⟨?_, ?_, rfl, by decide, by decide, ?_, ?_⟩
  · intro stats e h
    simp [healthFilter, h]
  · intro endpoints stats exclude e he hx h
    exact mem_healthyCandidates.mpr ⟨he, hx, by simp [healthFilter, h]⟩
  · simp [latency_based_select, healthyCandidates, healthFilter, List.mergeSort_singleton]
  · simp [rate_aware_select, healthyCandidates, healthFilter, List.mergeSort_singleton]

/-- Witness for C10: the health filter and candidate membership at a
concrete endpoint absent from an empty snapshot. -/
theorem C10_missing_stats_witness :
    healthFilter [] (RpcEndpoint.new "https://w2.example") = true ∧
    RpcEndpoint.new "https://w2.example" ∈
      healthyCandidates [RpcEndpoint.new "https://w2.example"] [] [] :=
  ⟨C10_missing_stats_treated_healthy.1 [] (RpcEndpoint.new "https://w2.example") rfl,
   C10_missing_stats_treated_healthy.2.1 [RpcEndpoint.new "https://w2.example"] [] []
     (RpcEndpoint.new "https://w2.example") (List.mem_singleton.mpr rfl)
     (List.not_mem_nil _) rfl⟩

/-! ## Helper lemmas: the execute loop -/

lemma failoverM_respects_exclude : RespectsExclude failoverM := by
  intro s endpoints stats exclude e s' h
  exact failover_select_not_excluded (congrArg Prod.fst h)

lemma roundRobinM_respects_exclude : RespectsExclude roundRobinM := by
  intro s endpoints stats exclude e s' h
  exact round_robin_select_not_excluded (congrArg Prod.fst h)

lemma latencyM_respects_exclude : RespectsExclude latencyM := by
  intro s endpoints stats exclude e s' h
  exact latency_based_select_not_excluded (congrArg Prod.fst h)

lemma rateAwareM_respects_exclude (now : Nat) : RespectsExclude (rateAwareM now) := by
  intro s endpoints stats exclude e s' h
  exact rate_aware_select_not_excluded (congrArg Prod.fst h)

/-- Loop invariant of `execGo`: the invocation trace is bounded by the fuel,
has no duplicate URLs, and avoids everything already tried. -/
lemma execGo_trace {σ α : Type} (strat : StrategyM σ) (op : String → Except String α)
    (maxc now : Nat) (endpoints : List RpcEndpoint) (hstrat : RespectsExclude strat) :
    ∀ (fuel : Nat) (s : σ) (stats : StatsMap) (tried : List String)
      (lastErr : Option String),
      (execGo strat op maxc now endpoints fuel s stats tried lastErr).2.length ≤ fuel ∧
      (execGo strat op maxc now endpoints fuel s stats tried lastErr).2.Nodup ∧
      ∀ u ∈ (execGo strat op maxc now endpoints fuel s stats tried lastErr).2, u ∉ tried
  | 0, s, stats, tried, lastErr => by simp [execGo]
  | fuel + 1, s, stats, tried, lastErr => by
    rcases hsel : strat.select s endpoints stats tried with ⟨o, s2⟩
    cases o with
    | none => simp [execGo, hsel]
    | some e =>
      have hex : e.url ∉ tried := hstrat s endpoints stats tried e s2 hsel
      cases hop : op e.url with
      | ok v =>
        simp only [execGo, hsel, hop]
        refine ⟨by simp, by simp, ?_⟩
        intro u hu
        rw [List.mem_singleton] at hu
        subst hu
        exact hex
      | error msg =>
        have ih := execGo_trace strat op maxc now endpoints hstrat fuel s2
          (updateStats stats e.url (fun st => (st.record_failure msg now maxc).2))
          (e.url :: tried) (some msg)
        simp only [execGo, hsel, hop]
        refine ⟨?_, ?_, ?_⟩
        · simpa using Nat.succ_le_succ ih.1
        · rw [List.nodup_cons]
          refine ⟨fun hmem => ?_, ih.2.1⟩
          exact (ih.2.2 e.url hmem) (List.mem_cons_self _ _)
        · intro u hu
          rw [List.mem_cons] at hu
          rcases hu with rfl | hu
          · exact hex
          · intro hmem
            exact (ih.2.2 u hu) (List.mem_cons_of_mem _ hmem)

/-! ## C1 -/

/-- C1: one call to `execute_with_url` invokes the caller's operation at
most `|endpoints|` times, and no URL is passed to it twice — for any
strategy that never returns an excluded endpoint (all four shipped
strategies do, see the `_respects_exclude` lemmas). -/
theorem C1_bounded_unique_attempts {σ α : Type} (strat : StrategyM σ)
    (hstrat : RespectsExclude strat) (op : String → Except String α)
    (maxc now : Nat) (endpoints : List RpcEndpoint) (stats : StatsMap) (s0 : σ) :
    (execute_with_url strat op maxc now endpoints stats s0).2.length ≤ endpoints.length ∧
    (execute_with_url strat op maxc now endpoints stats s0).2.Nodup := by
  have h := execGo_trace strat op maxc now endpoints hstrat endpoints.length s0 stats [] none
  exact ⟨h.1, h.2.1⟩

/-- Witness for C1: a two-endpoint pool under the failover strategy with an
always-failing operation. -/
theorem C1_bounded_unique_witness :
    (execute_with_url failoverM (fun _ => (Except.error "boom" : Except String Unit)) 3 0
        [RpcEndpoint.new "https://e1.example", RpcEndpoint.new "https://e2.example"]
        [] ()).2.length ≤
      ([RpcEndpoint.new "https://e1.example", RpcEndpoint.new "https://e2.example"] :
        List RpcEndpoint).length ∧
    (execute_with_url failoverM (fun _ => (Except.error "boom" : Except String Unit)) 3 0
        [RpcEndpoint.new "https://e1.example", RpcEndpoint.new "https://e2.example"]
        [] ()).2.Nodup :=
  C1_bounded_unique_attempts failoverM failoverM_respects_exclude
    (fun _ => (Except.error "boom" : Except String Unit)) 3 0
    [RpcEndpoint.new "https://e1.example", RpcEndpoint.new "https://e2.example"] [] ()

/-! ## Helper lemmas: tiered routing -/

/-- Walking the full tier order equals walking the present tiers only. -/
lemma tieredGo_eq_presentGo {α : Type} (present : EndpointTier → Bool)
    (result : EndpointTier → Except RpcPoolError α) :
    ∀ (ts : List EndpointTier) (le : Option RpcPoolError),
      tieredGo present result ts le = presentGo result (ts.filter present) le
  | [], le => rfl
  | t :: ts, le => by
    rw [tieredGo]
    by_cases hp : present t
    · rw [if_pos hp, List.filter_cons_of_pos hp]
      rw [presentGo]
      cases hr : result t with
      | ok v => rfl
      | error e => exact tieredGo_eq_presentGo present result ts (some e)
    · rw [if_neg hp, List.filter_cons_of_neg hp]
      exact tieredGo_eq_presentGo present result ts le

/-- When a tier in the list succeeds, the walk returns the first success. -/
lemma presentGo_first_ok {α : Type} (result : EndpointTier → Except RpcPoolError α) :
    ∀ (ts : List EndpointTier) (t : EndpointTier) (le : Option RpcPoolError),
      ts.find? (fun u => (result u).isOk) = some t →
      presentGo result ts le = result t
  | [], t, le, h => by simp at h
  | t0 :: ts, t, le, h => by
    rw [presentGo]
    cases hr : result t0 with
    | ok v =>
      rw [List.find?_cons_of_pos _ (by simp [hr, Except.isOk, Except.toBool])] at h
      cases h
      exact hr.symm
    | error e =>
      rw [List.find?_cons_of_neg _ (by simp [hr, Except.isOk, Except.toBool])] at h
      exact presentGo_first_ok result ts t (some e) h

/-- When every tier in the list fails, the walk returns the last error. -/
lemma presentGo_all_errors {α : Type} (result : EndpointTier → Except RpcPoolError α) :
    ∀ (ts : List EndpointTier) (t : EndpointTier) (le : Option RpcPoolError),
      (∀ u ∈ ts, (result u).isOk = false) → ts.getLast? = some t →
      presentGo result ts le = result t
  | [], t, le, _, hlast => by simp at hlast
  | [t0], t, le, _, hlast => by
    rw [List.getLast?_singleton] at hlast
    cases hlast
    rw [presentGo]
    cases hr : result t0 with
    | ok v => rfl
    | error e => rfl
  | t0 :: t1 :: ts, t, le, herr, hlast => by
    rw [List.getLast?_cons_cons] at hlast
    rw [presentGo]
    cases hr : result t0 with
    | ok v =>
      have := herr t0 (List.mem_cons_self _ _)
      rw [hr] at this
      simp [Except.isOk, Except.toBool] at this
    | error e =>
      exact presentGo_all_errors result (t1 :: ts) t (some e)
        (fun u hu => herr u (List.mem_cons_of_mem _ hu)) hlast

/-! ## C6 -/

/-- C6: `TieredPool::execute` computes exactly the claimed tier order for
each priority and fallback-flag combination, skips absent tiers, returns
the first present tier's inner success, otherwise the last present tier's
inner error, and `NoEndpointsConfigured` when no tier in the order is
present. -/
theorem C6_tiered_routing {α : Type} :
    (∀ ale : Bool, tier_order true ale .Critical = [.Premium, .Standard, .Free]) ∧
    (∀ ale : Bool, tier_order false ale .Critical = [.Premium]) ∧
    (∀ acf ale : Bool, tier_order acf ale .Normal = [.Standard, .Free]) ∧
    (∀ acf : Bool, tier_order acf true .Low = [.Free, .Standard, .Premium]) ∧
    (∀ acf : Bool, tier_order acf false .Low = [.Free]) ∧
    (∀ (acf ale : Bool) (present : EndpointTier → Bool)
        (result : EndpointTier → Except RpcPoolError α) (priority : RequestPriority),
      ((tier_order acf ale priority).filter present = [] →
        tiered_execute acf ale present result priority =
          .error .NoEndpointsConfigured) ∧
      (∀ t : EndpointTier, ((tier_order acf ale priority).filter present).find?
          (fun u => (result u).isOk) = some t →
        tiered_execute acf ale present result priority = result t) ∧
      (∀ t : EndpointTier,
        (∀ u ∈ (tier_order acf ale priority).filter present, (result u).isOk = false) →
        ((tier_order acf ale priority).filter present).getLast? = some t →
        tiered_execute acf ale present result priority = result t)) := by
  refine ⟨fun _ => rfl, fun _ => rfl, fun _ _ => rfl, fun _ => rfl, fun _ => rfl, ?_⟩
  intro acf ale present result priority
  unfold tiered_execute
  rw [tieredGo_eq_presentGo]
  refine ⟨fun h => by rw [h]; rfl, ?_, ?_⟩
  · intro t ht
    exact presentGo_first_ok result _ t none ht
  · intro t herr hlast
    exact presentGo_all_errors result _ t none herr hlast

/-- Witness for C6: only the Free tier is present, Critical priority with
fallback enabled, the inner pool always failing — the call returns the last
(only) inner error. -/
theorem C6_tiered_routing_witness :
    (([EndpointTier.Premium, EndpointTier.Standard, EndpointTier.Free].filter
        (fun t => t == EndpointTier.Free)).getLast? = some EndpointTier.Free) ∧
    tiered_execute true false (fun t => t == EndpointTier.Free)
      (fun _ => (Except.error (RpcPoolError.AllEndpointsFailed "x") : Except RpcPoolError Unit))
      RequestPriority.Critical = Except.error (RpcPoolError.AllEndpointsFailed "x") :=
  ⟨by decide,
   ((C6_tiered_routing.2.2.2.2.2 true false (fun t => t == EndpointTier.Free)
      (fun _ => (Except.error (RpcPoolError.AllEndpointsFailed "x") : Except RpcPoolError Unit))
      RequestPriority.Critical).2.2 EndpointTier.Free (by decide) (by decide))⟩

set_option maxRecDepth 4000 in
/-- C7 (code bug): `truncate_error_message` panics (modelled as `none`) on a
513-byte well-formed UTF-8 string whose 512-byte boundary splits a
character — byte slicing of `&msg[..512]` is not boundary-safe, contradicting
the spec's "nothing in the core panics on adverse input". -/
theorem C7_truncation_panics :
    utf8Len C7_failing_input = 513 ∧
    truncate_error_message C7_failing_input = none := by
  constructor
  · decide
  · decide

end RpcPool

